import Mathlib

/-!
Verification development for the single-file MCP wrapper server
(codex_mcp_server.py).  The Python source is shallowly embedded:

* text is `List Char`; Python timestamps (time.time floats) are `Rat`;
* the task directory is a total map from task id to the three per-task
  artifact slots (metadata record, stdout capture, stderr capture) —
  the on-disk addressing TASK_DIR/id.{meta,stdout,stderr} is modelled as
  keying the map by the id (faithful for ids without path-special
  characters, which is what the uuid-based generator produces);
* JSON values are the inductive `Json`; one JSON-RPC response dict is one
  `Json` value, and byte-identity of serialized output corresponds to
  equality of `Json` values because json.dumps is deterministic in the
  (insertion-ordered) dict structure;
* the external codex subprocess is an oracle (`ExecOutcome`): the embedding
  never runs processes, it only records what the server does with whichever
  behavior the child exhibits;
* `Option` results of the dispatcher: `none` marks behavior outside the
  modelled fragment — an uncaught Python exception (e.g. a non-dict request
  object) or string formatting of non-atomic values, none of which occur on
  well-formed requests.
-/

/-- Shorthand turning a string literal into the `List Char` text representation. -/
def lc (s : String) : List Char := s.toList

/-- Whitespace characters removed by Python str.strip (the ASCII fragment;
Python additionally strips some Unicode space characters, which no claim
depends on). -/
def isPySpace (c : Char) : Bool :=
  c == ' ' || c == '\t' || c == '\n' || c == '\r' || c == '\x0b' || c == '\x0c'

/-- Python str.strip(): drop leading and trailing whitespace. -/
def pyStrip (s : List Char) : List Char :=
  ((s.dropWhile isPySpace).reverse.dropWhile isPySpace).reverse

/-- Python int() applied to a (real-valued) number truncates toward zero. -/
def pyInt (q : Rat) : Int := if q < 0 then ⌈q⌉ else ⌊q⌋

/-- The leading marker token of the stderr scan in
extract_result_from_codex_output: the literal text codex followed by a
newline (from the regex pattern). -/
def leadMarker : List Char := lc "codex\n"

/-- The trailing marker phrase of the stderr scan (tokens used). -/
def trailMarker : List Char := lc "tokens used"

/-- Index of the leftmost occurrence of `pat` in `s` (re.search scans start
positions left to right). -/
def firstOccur (pat : List Char) : List Char → Option Nat
  | [] => if pat.isPrefixOf ([] : List Char) then some 0 else none
  | c :: t => if pat.isPrefixOf (c :: t) then some 0 else (firstOccur pat t).map (· + 1)

/-- Model of the Python regex search
re.search(r'codex\n(.+?)(?:tokens used|\Z)', stderr, re.DOTALL),
returning group(1).  Semantics of that pattern: the match starts at the
leftmost occurrence of the 6-character marker codex-newline that is followed
by at least one character (DOTALL lets the dot cross newlines); the lazy
group then grows one character at a time, stopping at the earliest position
— strictly after at least one group character — where the trailing phrase
tokens-used matches, or at the end of the text if that phrase never matches.
A marker occurrence with nothing after it cannot match (the group needs one
character), and such an occurrence is necessarily the last 6 characters of
the text, so no later start position can succeed either. -/
def codexStderrSearch (stderr : List Char) : Option (List Char) :=
  match firstOccur leadMarker stderr with
  | none => none
  | some i =>
    match stderr.drop (i + leadMarker.length) with
    | [] => none
    | c :: t =>
      match firstOccur trailMarker t with
      | some j => some (c :: t.take j)
      | none => some (c :: t)

/-- The literal fallback result text. -/
def fallbackText : List Char := lc "No output from Codex"

/-- extract_result_from_codex_output(stdout, stderr): trimmed stdout when
non-empty; otherwise, when stderr is non-empty, the trimmed group of the
marker regex when it matches; when everything ends up empty, the fallback
literal. -/
def extract_result_from_codex_output (stdout stderr : List Char) : List Char :=
  let result := pyStrip stdout
  let result2 :=
    if result = [] ∧ stderr ≠ [] then
      match codexStderrSearch stderr with
      | some seg => pyStrip seg
      | none => result
    else result
  if result2 = [] then fallbackText else result2

/-- A capture artifact: one redirected output file, with its text content and
last-modified timestamp (st_mtime). -/
structure Artifact where
  content : List Char
  mtime : Rat
deriving DecidableEq

/-- The metadata record persisted as the .meta artifact
(task_id, pid, status, command, started_at, and completed_at once set). -/
structure Metadata where
  task_id : List Char
  pid : Int
  status : List Char
  command : List Char
  started_at : Rat
  completed_at : Option Rat
deriving DecidableEq

/-- The three per-task artifact slots under the task directory; `none` means
the file does not exist. -/
structure TaskState where
  meta : Option Metadata
  stdout : Option Artifact
  stderr : Option Artifact
deriving DecidableEq

/-- The task directory: artifact slots for every task id. -/
def TaskStore : Type := List Char → TaskState

/-- The value returned by check_task_status (the status dict). -/
inductive CheckResult where
  | notFound (error : List Char)
  | running (task_id : List Char) (elapsed_seconds : Int) (command : List Char)
  | completed (task_id : List Char) (result : List Char) (elapsed_seconds : Int)
deriving DecidableEq

/-- The 'status' field of the returned dict. -/
def CheckResult.statusName : CheckResult → List Char
  | .notFound _ => lc "not_found"
  | .running _ _ _ => lc "running"
  | .completed _ _ _ => lc "completed"

/-- check_task_status(task_id): not_found when the .meta artifact is absent;
otherwise liveness by output-file recency — with at least one capture
artifact present, running iff the newest mtime (a missing file contributes
0 to the Python max) is within 10 seconds of now; otherwise the captures are
read (missing file: empty text), the result extracted, and the metadata
rewritten with status completed and completed_at = now.  The several
time.time() calls of one check are modelled as the single instant `now`. -/
def check_task_status (now : Rat) (task_id : List Char) (ts : TaskState) :
    CheckResult × TaskState :=
  match ts.meta with
  | none => (.notFound (lc "Task " ++ task_id ++ lc " not found"), ts)
  | some metadata =>
    let stdoutMtime : Rat := match ts.stdout with | some a => a.mtime | none => 0
    let stderrMtime : Rat := match ts.stderr with | some a => a.mtime | none => 0
    let latest_mtime : Rat := max stdoutMtime stderrMtime
    if (ts.stdout.isSome || ts.stderr.isSome) && decide (now - latest_mtime < 10) then
      (.running task_id (pyInt (now - metadata.started_at)) metadata.command, ts)
    else
      let stdoutText := match ts.stdout with | some a => a.content | none => []
      let stderrText := match ts.stderr with | some a => a.content | none => []
      let result := extract_result_from_codex_output stdoutText stderrText
      (.completed task_id result (pyInt (now - metadata.started_at)),
       { ts with
         meta := some { metadata with
                        status := lc "completed", completed_at := some now } })

/-- Behavior of the external codex subprocess run by call_codex_sync: normal
exit with captured stdout/stderr, a timeout (subprocess.TimeoutExpired), or
any other exception raised inside the try block. -/
inductive ExecOutcome where
  | completed (stdout stderr : List Char)
  | timedOut
  | failed (message : List Char)

/-- call_codex_sync: extraction on normal completion, and the two literal
diagnostic strings produced by the except clauses. -/
def call_codex_sync (outcome : ExecOutcome) : List Char :=
  match outcome with
  | .completed out err => extract_result_from_codex_output out err
  | .timedOut => lc "Error: Codex execution timed out"
  | .failed message => lc "Error calling Codex: " ++ message

/-- Per-request environment: the current time, the fresh id produced by
uuid.uuid4 truncation, the pid of a spawned child, and the sync-subprocess
oracle. -/
structure Env where
  now : Rat
  new_task_id : List Char
  new_pid : Int
  outcome : ExecOutcome

/-- Command construction shared by both executors: ['codex', subcommand],
the prompt appended only when truthy (present and non-empty), then the extra
args. -/
def build_cmd (subcommand : List Char) (prompt : Option (List Char))
    (args : List (List Char)) : List (List Char) :=
  [lc "codex", subcommand] ++
    (match prompt with
     | some p => if p = [] then [] else [p]
     | none => []) ++ args

/-- start_codex_async: create the two capture artifacts, spawn the detached
child, write the initial metadata record (status running, started_at = now,
command = the space-joined invocation), and return the fresh id. -/
def start_codex_async (env : Env) (subcommand : List Char)
    (prompt : Option (List Char)) (args : List (List Char)) (store : TaskStore) :
    List Char × TaskStore :=
  let task_id := env.new_task_id
  let cmd := build_cmd subcommand prompt args
  let newState : TaskState :=
    { meta := some { task_id := task_id, pid := env.new_pid,
                     status := lc "running",
                     command := List.intercalate (lc " ") cmd,
                     started_at := env.now, completed_at := none },
      stdout := some { content := [], mtime := env.now },
      stderr := some { content := [], mtime := env.now } }
  (task_id, fun k => if k = task_id then newState else store k)

/-- JSON values (the result of json.loads / the argument of json.dumps). -/
inductive Json where
  | null
  | bool (b : Bool)
  | num (q : Rat)
  | str (s : List Char)
  | arr (elems : List Json)
  | obj (fields : List (List Char × Json))

/-- Python dict lookup on a dict built from JSON object fields: json.loads
keeps the last occurrence of a duplicated key, so later fields take
priority. -/
def dictGet (fields : List (List Char × Json)) (key : List Char) : Option Json :=
  match fields with
  | [] => none
  | (k, v) :: rest =>
    match dictGet rest key with
    | some w => some w
    | none => if k = key then some v else none

/-- Python truthiness of a value parsed from JSON. -/
def jsonFalsy : Json → Bool
  | .null => true
  | .bool b => !b
  | .num q => q == 0
  | .str s => s.isEmpty
  | .arr elems => elems.isEmpty
  | .obj fields => fields.isEmpty

/-- Python str() of the atomic values that the dispatcher can interpolate
into a diagnostic message.  Rendering of numeric and composite values is
outside the modelled fragment. -/
def pyFormat : Json → Option (List Char)
  | .str s => some s
  | .null => some (lc "None")
  | .bool true => some (lc "True")
  | .bool false => some (lc "False")
  | _ => none

/-- A JSON-RPC success envelope as built by send_response. -/
def mkResult (id : Json) (result : Json) : Json :=
  .obj [(lc "jsonrpc", .str (lc "2.0")), (lc "id", id), (lc "result", result)]

/-- A JSON-RPC error envelope as built by send_response. -/
def mkError (id : Json) (code : Int) (message : List Char) : Json :=
  .obj [(lc "jsonrpc", .str (lc "2.0")), (lc "id", id),
        (lc "error", .obj [(lc "code", .num (code : Rat)),
                           (lc "message", .str message)])]

/-- The content envelope wrapping a tool's text result. -/
def textContent (text : List Char) : Json :=
  .obj [(lc "content",
         .arr [.obj [(lc "type", .str (lc "text")), (lc "text", .str text)]])]

/-- Whether a response dict carries a JSON-RPC error object. -/
def isErrorResponse (j : Json) : Bool :=
  match j with
  | .obj fields => (dictGet fields (lc "error")).isSome
  | _ => false

/-- Python str() of an int (decimal digits, minus sign for negatives). -/
def intStr (i : Int) : List Char := (toString i).toList

/-- Text returned by the codex_execute_async handler. -/
def asyncStartText (task_id : List Char) : List Char :=
  lc "Codex task started in background.\nTask ID: " ++ task_id ++
    lc "\n\nUse codex_check_result(task_id=\"" ++ task_id ++
    lc "\") to retrieve the result."

/-- Formatting of a check_task_status outcome by the codex_check_result
handler (the not-found case reports the stored error text). -/
def checkResultText (task_id : List Char) : CheckResult → List Char
  | .running _ elapsed command =>
    lc "Task " ++ task_id ++ lc " is still running.\nElapsed: " ++
      intStr elapsed ++ lc "s\nCommand: " ++ command
  | .completed _ result elapsed =>
    lc "Task " ++ task_id ++ lc " completed in " ++ intStr elapsed ++
      lc "s.\n\nResult:\n" ++ result
  | .notFound error => error

/-- arguments.get('subcommand', 'exec') as used by the async launcher: absent
gives the default; a non-string value would crash the spawn (unmodelled). -/
def getSubcommandArg (afields : List (List Char × Json)) : Option (List Char) :=
  match dictGet afields (lc "subcommand") with
  | none => some (lc "exec")
  | some (.str s) => some s
  | some _ => none

/-- arguments.get('prompt'): absent or falsy behaves as no prompt (the
launcher tests truthiness); a truthy non-string value would crash the spawn
(unmodelled). -/
def getPromptArg (afields : List (List Char × Json)) : Option (Option (List Char)) :=
  match dictGet afields (lc "prompt") with
  | none => some none
  | some (.str s) => some (some s)
  | some v => if jsonFalsy v then some none else none

/-- arguments.get('args', []): a JSON array of strings (other shapes crash
the spawn or iterate non-string values; unmodelled). -/
def getArgsArg (afields : List (List Char × Json)) : Option (List (List Char)) :=
  match dictGet afields (lc "args") with
  | none => some []
  | some (.arr elems) =>
    elems.mapM (fun e => match e with | .str s => some s | _ => none)
  | some _ => none

/-- The fixed initialize result. -/
def initResultJson : Json :=
  .obj [(lc "protocolVersion", .str (lc "2024-11-05")),
        (lc "capabilities", .obj [(lc "tools", .obj [])]),
        (lc "serverInfo", .obj [(lc "name", .str (lc "codex-mcp")),
                                (lc "version", .str (lc "0.2.0"))])]

/-- The fixed tools/list result: the static catalog of the three tools with
their input schemas, transcribed from the handler's literal. -/
def toolsListJson : Json :=
  .obj [(lc "tools", .arr [
    .obj [(lc "name", .str (lc "codex_execute")),
          (lc "description", .str (lc "Execute OpenAI Codex (GPT-5) synchronously with full control over subcommand and arguments. Returns only the core result, filtering out thinking process to save context. Common usage: subcommand=\"exec\", prompt=\"your task\", args=[\"--full-auto\"]")),
          (lc "inputSchema", .obj [
            (lc "type", .str (lc "object")),
            (lc "properties", .obj [
              (lc "subcommand", .obj [
                (lc "type", .str (lc "string")),
                (lc "description", .str (lc "Codex subcommand to execute")),
                (lc "enum", .arr [.str (lc "exec"), .str (lc "apply"),
                                  .str (lc "resume"), .str (lc "sandbox")]),
                (lc "default", .str (lc "exec"))]),
              (lc "prompt", .obj [
                (lc "type", .str (lc "string")),
                (lc "description", .str (lc "Main prompt/argument for the command (required for exec, optional for others)"))]),
              (lc "args", .obj [
                (lc "type", .str (lc "array")),
                (lc "items", .obj [(lc "type", .str (lc "string"))]),
                (lc "description", .str (lc "Additional command-line arguments. Model selection: [\"-m\", \"gpt-5-codex\"] for coding (default) or [\"-m\", \"gpt-5\"] for analysis. Reasoning effort: [\"--config\", \"model_reasoning_effort=low|medium|high\"] (gpt-5-codex supports low/medium/high; gpt-5 supports minimal/low/medium/high). Example: [\"--full-auto\", \"-m\", \"gpt-5\", \"--config\", \"model_reasoning_effort=high\"]. Always include \"--full-auto\" for non-interactive execution."))]),
              (lc "timeout", .obj [
                (lc "type", .str (lc "integer")),
                (lc "description", .str (lc "Timeout in seconds (default: no limit)"))])]),
            (lc "required", .arr [])])],
    .obj [(lc "name", .str (lc "codex_execute_async")),
          (lc "description", .str (lc "Start a Codex task in the background and return immediately with a task_id. Use codex_check_result to retrieve the result later. This allows you to continue working while Codex runs.")),
          (lc "inputSchema", .obj [
            (lc "type", .str (lc "object")),
            (lc "properties", .obj [
              (lc "subcommand", .obj [
                (lc "type", .str (lc "string")),
                (lc "description", .str (lc "Codex subcommand to execute")),
                (lc "enum", .arr [.str (lc "exec"), .str (lc "apply"),
                                  .str (lc "resume"), .str (lc "sandbox")]),
                (lc "default", .str (lc "exec"))]),
              (lc "prompt", .obj [
                (lc "type", .str (lc "string")),
                (lc "description", .str (lc "Main prompt/argument for the command"))]),
              (lc "args", .obj [
                (lc "type", .str (lc "array")),
                (lc "items", .obj [(lc "type", .str (lc "string"))]),
                (lc "description", .str (lc "Additional command-line arguments. Model selection: [\"-m\", \"gpt-5-codex\"] for coding (default) or [\"-m\", \"gpt-5\"] for analysis. Reasoning effort: [\"--config\", \"model_reasoning_effort=low|medium|high\"] (gpt-5-codex supports low/medium/high; gpt-5 supports minimal/low/medium/high). Example: [\"--full-auto\", \"-m\", \"gpt-5\", \"--config\", \"model_reasoning_effort=high\"]. Always include \"--full-auto\" for non-interactive execution."))])]),
            (lc "required", .arr [])])],
    .obj [(lc "name", .str (lc "codex_check_result")),
          (lc "description", .str (lc "Check the status of an async Codex task. Returns running/completed status and the result if available.")),
          (lc "inputSchema", .obj [
            (lc "type", .str (lc "object")),
            (lc "properties", .obj [
              (lc "task_id", .obj [
                (lc "type", .str (lc "string")),
                (lc "description", .str (lc "The task_id returned by codex_execute_async"))])]),
            (lc "required", .arr [.str (lc "task_id")])])]])]

/-- handle_request: route one parsed request.  Returns the responses written
plus the updated task store, or none when the Python code would escape the
modelled fragment (an uncaught exception such as calling .get on a non-dict
value, or interpolating a non-atomic value into a message). -/
def handle_request (env : Env) (store : TaskStore) (request : Json) :
    Option (List Json × TaskStore) :=
  match request with
  | .obj fields =>
    let request_id := (dictGet fields (lc "id")).getD Json.null
    match (dictGet fields (lc "method")).getD Json.null with
    | .str m =>
      if m = lc "initialize" then
        some ([mkResult request_id initResultJson], store)
      else if m = lc "tools/list" then
        some ([mkResult request_id toolsListJson], store)
      else if m = lc "tools/call" then
        match (dictGet fields (lc "params")).getD (Json.obj []) with
        | .obj pfields =>
          let arguments := (dictGet pfields (lc "arguments")).getD (Json.obj [])
          match (dictGet pfields (lc "name")).getD Json.null with
          | .str t =>
            if t = lc "codex_execute" then
              match arguments with
              | .obj _ =>
                some ([mkResult request_id
                        (textContent (call_codex_sync env.outcome))], store)
              | _ => none
            else if t = lc "codex_execute_async" then
              match arguments with
              | .obj afields =>
                match getSubcommandArg afields, getPromptArg afields,
                      getArgsArg afields with
                | some sub, some pr, some extra =>
                  let launched := start_codex_async env sub pr extra store
                  some ([mkResult request_id
                          (textContent (asyncStartText launched.1))], launched.2)
                | _, _, _ => none
              | _ => none
            else if t = lc "codex_check_result" then
              match arguments with
              | .obj afields =>
                let task_id_v := (dictGet afields (lc "task_id")).getD Json.null
                if jsonFalsy task_id_v then
                  some ([mkError request_id (-32602) (lc "task_id is required")],
                        store)
                else
                  match task_id_v with
                  | .str task_id =>
                    let checked := check_task_status env.now task_id (store task_id)
                    some ([mkResult request_id
                            (textContent (checkResultText task_id checked.1))],
                          fun k => if k = task_id then checked.2 else store k)
                  | _ => none
              | _ => none
            else
              some ([mkError request_id (-32601) (lc "Unknown tool: " ++ t)], store)
          | v =>
            match pyFormat v with
            | some tname =>
              some ([mkError request_id (-32601) (lc "Unknown tool: " ++ tname)],
                    store)
            | none => none
        | _ => none
      else
        some ([mkError request_id (-32601) (lc "Method not found: " ++ m)], store)
    | v =>
      match pyFormat v with
      | some mname =>
        some ([mkError request_id (-32601) (lc "Method not found: " ++ mname)],
              store)
      | none => none
  | _ => none

/-- One iteration of the main() stdin loop: strip the line; a blank line is
skipped with no response; otherwise json.loads — a parse failure produces
the single parse-error response with null id, a successful parse is
dispatched.  `loads` is the oracle for Python json.loads; an error value
carries the JSONDecodeError message text. -/
def process_line (loads : List Char → Except (List Char) Json) (env : Env)
    (store : TaskStore) (line : List Char) : Option (List Json × TaskStore) :=
  let stripped := pyStrip line
  if stripped = [] then some ([], store)
  else
    match loads stripped with
    | .ok request => handle_request env store request
    | .error msg =>
      some ([mkError Json.null (-32700) (lc "Parse error: " ++ msg)], store)

/-- The responses component of a dispatcher outcome. -/
def responsesOf (r : Option (List Json × TaskStore)) : Option (List Json) :=
  r.map Prod.fst

/-- The task-store component of a dispatcher outcome. -/
def storeOf (r : Option (List Json × TaskStore)) : Option TaskStore :=
  r.map Prod.snd

/-- The last-modified timestamps of the capture artifacts that exist. -/
def existingMtimes (ts : TaskState) : List Rat :=
  (match ts.stdout with | some a => [a.mtime] | none => []) ++
  (match ts.stderr with | some a => [a.mtime] | none => [])

/-- Trimmed text when non-empty, the fallback literal otherwise (the final
normalization step of the extractor, used to state its specification). -/
def stripOr (seg : List Char) : List Char :=
  if pyStrip seg = [] then fallbackText else pyStrip seg

/-- A task store with no artifacts at all. -/
def emptyStore : TaskStore :=
  fun _ => { meta := none, stdout := none, stderr := none }

/-- A concrete request environment for closed instances. -/
def envEx : Env :=
  { now := 100, new_task_id := lc "ab12cd34", new_pid := 4242,
    outcome := .timedOut }

/-- A json.loads oracle that fails on every line, with the message Python
gives for input that does not start a JSON value.  Where it is consulted in
the closed instances below, real json.loads fails identically. -/
def loadsRejecting : List Char → Except (List Char) Json :=
  fun _ => .error (lc "Expecting value: line 1 column 1 (char 0)")

/-- A concrete metadata record for closed instances. -/
def metaEx : Metadata :=
  { task_id := lc "t1", pid := 7, status := lc "running",
    command := lc "codex exec hi", started_at := 90, completed_at := none }

/-- A concrete task state: metadata present, stdout capture written at t=95,
no stderr capture. -/
def tsRunningEx : TaskState :=
  { meta := some metaEx,
    stdout := some { content := lc "partial", mtime := 95 },
    stderr := none }

/-- A concrete task state whose captures are stale (written long before the
check). -/
def tsStaleEx : TaskState :=
  { meta := some metaEx,
    stdout := some { content := lc "hello", mtime := 80 },
    stderr := some { content := [], mtime := 70 } }

/-- A concrete task state: metadata present but neither capture artifact. -/
def tsNoArtifacts : TaskState :=
  { meta := some metaEx, stdout := none, stderr := none }

/-- Bridge between the boolean prefix test and the prefix relation. -/
theorem isPrefixOf_eq_true_iff {l1 l2 : List Char} :
    l1.isPrefixOf l2 = true ↔ l1 <+: l2 :=
  List.isPrefixOf_iff_prefix

theorem firstOccur_some_iff {pat : List Char} (hpat : pat ≠ []) :
    ∀ (s : List Char) (i : Nat),
      firstOccur pat s = some i ↔
        (pat <+: s.drop i ∧ ∀ j, j < i → ¬ pat <+: s.drop j) := by
  intro s
  induction s with
  | nil =>
    intro i
    have hb : pat.isPrefixOf ([] : List Char) = false := by
      cases pat with
      | nil => exact absurd rfl hpat
      | cons a l => rfl
    simp [firstOccur, hb, List.prefix_nil, hpat]
  | cons c t ih =>
    intro i
    by_cases hp : pat <+: (c :: t)
    · have hb : pat.isPrefixOf (c :: t) = true := isPrefixOf_eq_true_iff.mpr hp
      simp only [firstOccur, hb, if_true]
      cases i with
      | zero => simp [hp]
      | succ n =>
        simp only [Option.some.injEq]
        constructor
        · intro h
          exact absurd h.symm (Nat.succ_ne_zero n)
        · rintro ⟨-, hall⟩
          exact absurd hp (by simpa using hall 0 (Nat.succ_pos n))
    · have hb : pat.isPrefixOf (c :: t) = false := by
        rw [← Bool.not_eq_true]
        exact fun hh => hp (isPrefixOf_eq_true_iff.mp hh)
      simp only [firstOccur, hb, Bool.false_eq_true, if_false]
      cases i with
      | zero =>
        simp only [List.drop_zero]
        constructor
        · intro h
          rcases Option.map_eq_some'.mp h with ⟨a, -, hai⟩
          exact absurd hai (Nat.succ_ne_zero a)
        · rintro ⟨h1, -⟩
          exact absurd h1 hp
      | succ n =>
        constructor
        · intro h
          rcases Option.map_eq_some'.mp h with ⟨a, ha, hai⟩
          have han : a = n := by omega
          rcases (ih n).mp (han ▸ ha) with ⟨h1, h2⟩
          refine ⟨by simpa using h1, ?_⟩
          intro j hj
          cases j with
          | zero => simpa using hp
          | succ k =>
            have hk : k < n := by omega
            simpa using h2 k hk
        · rintro ⟨h1, h2⟩
          apply Option.map_eq_some'.mpr
          refine ⟨n, (ih n).mpr ⟨by simpa using h1, ?_⟩, rfl⟩
          intro k hk
          have := h2 (k + 1) (by omega)
          simpa using this

theorem firstOccur_none_iff {pat : List Char} (hpat : pat ≠ []) :
    ∀ s : List Char, firstOccur pat s = none ↔ ∀ j : Nat, ¬ pat <+: s.drop j := by
  intro s
  induction s with
  | nil =>
    have hb : pat.isPrefixOf ([] : List Char) = false := by
      cases pat with
      | nil => exact absurd rfl hpat
      | cons a l => rfl
    simp [firstOccur, hb, List.prefix_nil, hpat]
  | cons c t ih =>
    by_cases hp : pat <+: (c :: t)
    · have hb : pat.isPrefixOf (c :: t) = true := isPrefixOf_eq_true_iff.mpr hp
      simp only [firstOccur, hb, if_true]
      constructor
      · intro h
        exact absurd h (by simp)
      · intro h
        exact absurd hp (by simpa using h 0)
    · have hb : pat.isPrefixOf (c :: t) = false := by
        rw [← Bool.not_eq_true]
        exact fun hh => hp (isPrefixOf_eq_true_iff.mp hh)
      simp only [firstOccur, hb, Bool.false_eq_true, if_false, Option.map_eq_none']
      rw [ih]
      constructor
      · intro h j
        cases j with
        | zero => simpa using hp
        | succ k => simpa using h k
      · intro h k
        simpa using h (k + 1)

theorem extract_of_nonempty_stdout (stdout stderr : List Char)
    (h : pyStrip stdout ≠ []) :
    extract_result_from_codex_output stdout stderr = pyStrip stdout := by
  unfold extract_result_from_codex_output
  simp [h]

theorem extract_of_empty_all (stdout : List Char) (h : pyStrip stdout = []) :
    extract_result_from_codex_output stdout [] = fallbackText := by
  unfold extract_result_from_codex_output
  rw [h]
  simp

theorem extract_eq_search (stdout stderr : List Char) (h : pyStrip stdout = [])
    (hs : stderr ≠ []) :
    extract_result_from_codex_output stdout stderr =
      (match codexStderrSearch stderr with
       | some seg => stripOr seg
       | none => fallbackText) := by
  unfold extract_result_from_codex_output
  rw [h]
  simp only [hs, ne_eq, not_false_eq_true, and_self, if_true, true_and]
  cases hsearch : codexStderrSearch stderr with
  | none => simp [hsearch]
  | some seg => simp [hsearch, stripOr]

/-- C1 (amended).  Full behavior of the Output Extractor: (1) trimmed stdout
when non-empty; (2) the fallback literal when stdout trims to empty and
stderr has no leading-marker occurrence followed by at least one character;
(3) when stdout trims to empty and the leading marker first occurs at i with
at least one later character, the returned text is the trimmed segment from
just after the marker to the first occurrence of the trailing marker phrase
strictly beyond one segment character — or to the end of stderr when the
phrase does not occur there — with the fallback literal replacing a segment
that trims to empty. -/
theorem extract_result_characterization (stdout stderr : List Char) :
    (pyStrip stdout ≠ [] →
       extract_result_from_codex_output stdout stderr = pyStrip stdout)
  ∧ (pyStrip stdout = [] →
       (∀ i : Nat, leadMarker <+: stderr.drop i →
          stderr.length ≤ i + leadMarker.length) →
       extract_result_from_codex_output stdout stderr = fallbackText)
  ∧ (∀ i : Nat, pyStrip stdout = [] →
       leadMarker <+: stderr.drop i →
       i + leadMarker.length < stderr.length →
       (∀ k, k < i → ¬ leadMarker <+: stderr.drop k) →
       ((∀ j, i + leadMarker.length + 1 ≤ j → ¬ trailMarker <+: stderr.drop j) →
          extract_result_from_codex_output stdout stderr =
            stripOr (stderr.drop (i + leadMarker.length)))
       ∧ (∀ j, i + leadMarker.length + 1 ≤ j → trailMarker <+: stderr.drop j →
           (∀ k, i + leadMarker.length + 1 ≤ k → k < j →
              ¬ trailMarker <+: stderr.drop k) →
           extract_result_from_codex_output stdout stderr =
             stripOr ((stderr.drop (i + leadMarker.length)).take
                        (j - (i + leadMarker.length))))) := by
  have hlm : leadMarker ≠ [] := by decide
  have htm : trailMarker ≠ [] := by decide
  refine ⟨fun h => extract_of_nonempty_stdout stdout stderr h, ?_, ?_⟩
  · intro h hnone
    by_cases hse : stderr = []
    · subst hse
      exact extract_of_empty_all stdout h
    · rw [extract_eq_search stdout stderr h hse]
      cases hfo : firstOccur leadMarker stderr with
      | none => simp [codexStderrSearch, hfo]
      | some i =>
        have h1 := ((firstOccur_some_iff hlm stderr i).mp hfo).1
        have hdrop : stderr.drop (i + leadMarker.length) = [] :=
          List.drop_eq_nil_iff.mpr (hnone i h1)
        simp [codexStderrSearch, hfo, hdrop]
  · intro i h hocc hlen hmin
    have hse : stderr ≠ [] := by
      intro he
      rw [he] at hlen
      simp at hlen
    have hfo : firstOccur leadMarker stderr = some i :=
      (firstOccur_some_iff hlm stderr i).mpr ⟨hocc, hmin⟩
    have hrest : stderr.drop (i + leadMarker.length) ≠ [] := by
      rw [Ne, List.drop_eq_nil_iff]
      omega
    obtain ⟨c, t, hct⟩ := List.exists_cons_of_ne_nil hrest
    have ht : t = stderr.drop (i + leadMarker.length + 1) := by
      rw [← List.tail_drop, hct]
      rfl
    constructor
    · intro hnoj
      have hfoT : firstOccur trailMarker t = none := by
        rw [firstOccur_none_iff htm t]
        intro j'
        rw [ht, List.drop_drop]
        exact hnoj (i + leadMarker.length + 1 + j') (by omega)
      rw [extract_eq_search stdout stderr h hse]
      simp only [codexStderrSearch, hfo, hct, hfoT]
    · intro j hj hoccj hminj
      have hfoT : firstOccur trailMarker t = some (j - (i + leadMarker.length + 1)) := by
        rw [firstOccur_some_iff htm t]
        constructor
        · rw [ht, List.drop_drop]
          have : i + leadMarker.length + 1 + (j - (i + leadMarker.length + 1)) = j := by
            omega
          rw [this]
          exact hoccj
        · intro k hk
          rw [ht, List.drop_drop]
          exact hminj (i + leadMarker.length + 1 + k) (by omega) (by omega)
      rw [extract_eq_search stdout stderr h hse]
      simp only [codexStderrSearch, hfo, hct, hfoT]
      have hidx : j - (i + leadMarker.length) =
          (j - (i + leadMarker.length + 1)) + 1 := by
        omega
      rw [hidx, List.take_succ_cons]

/-- Witness for extract_result_characterization at a concrete input
exercising the marker / trailing-phrase path. -/
theorem extract_result_characterization_witness :
    extract_result_from_codex_output [] (lc "codex\nhi tokens used") = lc "hi" := by
  have hmin : ∀ k, 0 + leadMarker.length + 1 ≤ k → k < 9 →
      ¬ trailMarker <+: (lc "codex\nhi tokens used").drop k := by
    intro k h1 h2
    have h1' : 7 ≤ k := h1
    interval_cases k <;> decide
  have h := ((extract_result_characterization []
      (lc "codex\nhi tokens used")).2.2 0 (by decide) (by decide) (by decide)
      (fun k hk => absurd hk (Nat.not_lt_zero k))).2 9 (by decide) (by decide) hmin
  exact h.trans (by decide)

/-- C1 as frozen fails on the code: with empty stdout and a stderr that
contains the leading marker but no trailing marker phrase anywhere, the
extractor still returns the post-marker segment (the regex accepts
end-of-text in place of the phrase) instead of the fallback literal the
claim requires in that situation. -/
theorem extract_hello_counterexample :
    extract_result_from_codex_output [] (lc "codex\nhello") = lc "hello"
    ∧ firstOccur trailMarker (lc "codex\nhello") = none
    ∧ lc "hello" ≠ fallbackText := by
  exact ⟨by decide, by decide, by decide⟩

/-- C2: when the metadata record and at least one capture artifact exist
(and, as for any time-derived stamp, the existing mtimes are nonnegative —
needed because the Python max treats a missing file as time 0), a status
check classifies the task running exactly when now minus the newest existing
mtime is strictly below 10 seconds, and completed exactly otherwise. -/
theorem running_iff_recent_write (now : Rat) (tid : List Char) (ts : TaskState)
    (m : Metadata) (latest : Rat)
    (hm : ts.meta = some m)
    (hmem : latest ∈ existingMtimes ts)
    (hub : ∀ q ∈ existingMtimes ts, q ≤ latest)
    (hnn : ∀ q ∈ existingMtimes ts, 0 ≤ q) :
    ((check_task_status now tid ts).1.statusName = lc "running" ↔
       now - latest < 10)
    ∧ ((check_task_status now tid ts).1.statusName = lc "completed" ↔
       ¬ (now - latest < 10)) := by
  have hkey : (check_task_status now tid ts).1.statusName =
      (if now - latest < 10 then lc "running" else lc "completed") := by
    rcases hso : ts.stdout with _ | a <;> rcases hse : ts.stderr with _ | b
    · simp [existingMtimes, hso, hse] at hmem
    · have hl : latest = b.mtime := by
        simpa [existingMtimes, hso, hse] using hmem
      have hb : (0 : Rat) ≤ b.mtime := by
        simpa [existingMtimes, hso, hse] using hnn
      have hb' : (0 : Rat) ≤ latest := by rw [hl]; exact hb
      simp only [check_task_status, hm, hso, hse, Option.isSome_none,
        Option.isSome_some, Bool.false_or, Bool.true_and,
        decide_eq_true_eq, ← hl]
      by_cases hlt : now - latest < 10
      · simp [max_eq_right hb', hlt, CheckResult.statusName]
      · simp [max_eq_right hb', hlt, CheckResult.statusName]
    · have hl : latest = a.mtime := by
        simpa [existingMtimes, hso, hse] using hmem
      have ha : (0 : Rat) ≤ a.mtime := by
        simpa [existingMtimes, hso, hse] using hnn
      have ha' : (0 : Rat) ≤ latest := by rw [hl]; exact ha
      simp only [check_task_status, hm, hso, hse, Option.isSome_none,
        Option.isSome_some, Bool.or_false, Bool.true_and,
        decide_eq_true_eq, ← hl]
      by_cases hlt : now - latest < 10
      · simp [max_eq_left ha', hlt, CheckResult.statusName]
      · simp [max_eq_left ha', hlt, CheckResult.statusName]
    · have hl : max a.mtime b.mtime = latest := by
        have h1 : a.mtime ≤ latest := by
          apply hub
          simp [existingMtimes, hso, hse]
        have h2 : b.mtime ≤ latest := by
          apply hub
          simp [existingMtimes, hso, hse]
        have h3 : latest ≤ max a.mtime b.mtime := by
          have := hmem
          simp [existingMtimes, hso, hse] at this
          rcases this with h | h
          · rw [h]; exact le_max_left _ _
          · rw [h]; exact le_max_right _ _
        exact le_antisymm (max_le h1 h2) h3
      simp only [check_task_status, hm, hso, hse, Option.isSome_some,
        Bool.or_self, Bool.true_and, decide_eq_true_eq, hl]
      by_cases hlt : now - latest < 10
      · simp [hlt, CheckResult.statusName]
      · simp [hlt, CheckResult.statusName]
  by_cases hlt : now - latest < 10
  · rw [hkey, if_pos hlt]
    exact ⟨iff_of_true rfl hlt,
           iff_of_false (by decide) (not_not_intro hlt)⟩
  · rw [hkey, if_neg hlt]
    exact ⟨iff_of_false (by decide) hlt, iff_of_true rfl hlt⟩

/-- Witness for running_iff_recent_write: a task whose stdout capture was
written 5 seconds before the check is classified running. -/
theorem running_iff_recent_write_witness :
    (check_task_status 100 (lc "t1") tsRunningEx).1.statusName = lc "running" := by
  have h := running_iff_recent_write 100 (lc "t1") tsRunningEx metaEx 95
    rfl (by decide) (by decide) (by decide)
  exact h.1.mpr (by norm_num)

theorem pyInt_mono {a b : Rat} (h : a ≤ b) : pyInt a ≤ pyInt b := by
  unfold pyInt
  by_cases ha : a < 0 <;> by_cases hb : b < 0
  · rw [if_pos ha, if_pos hb]
    exact Int.ceil_mono h
  · rw [if_pos ha, if_neg hb]
    have h1 : ⌈a⌉ ≤ 0 := by
      rw [Int.ceil_le]
      push_cast
      exact le_of_lt ha
    have h2 : (0 : Int) ≤ ⌊b⌋ := Int.floor_nonneg.mpr (not_lt.mp hb)
    omega
  · exact absurd (lt_of_le_of_lt h hb) ha
  · rw [if_neg ha, if_neg hb]
    exact Int.floor_mono h

/-- C4: every status check that classifies a task completed — also each
re-check of a task already persisted completed, since the check never
consults the stored status — rewrites the metadata completion timestamp to
the time of that check and reports elapsed seconds equal to that check time
minus the launch time; hence the reported elapsed value grows monotonically
with the polling time rather than staying fixed at first-observed
completion. -/
theorem completed_timestamp_rewrite (now : Rat) (tid : List Char)
    (ts : TaskState) (m : Metadata) (hm : ts.meta = some m)
    (hc : (check_task_status now tid ts).1.statusName = lc "completed") :
    (check_task_status now tid ts).2.meta =
      some { m with status := lc "completed", completed_at := some now }
    ∧ (∃ r, (check_task_status now tid ts).1 =
        .completed tid r (pyInt (now - m.started_at)))
    ∧ (∀ t1 t2 : Rat, t1 ≤ t2 →
        pyInt (t1 - m.started_at) ≤ pyInt (t2 - m.started_at)) := by
  refine ⟨?_, ?_, fun t1 t2 h12 => pyInt_mono (by linarith)⟩ <;>
  · unfold check_task_status at hc ⊢
    rw [hm] at hc ⊢
    dsimp only at hc ⊢
    split at hc
    · simp only [CheckResult.statusName] at hc
      exact absurd hc (by decide)
    · rename_i hcond
      rw [if_neg hcond]
      all_goals exact ⟨_, rfl⟩

/-- Witness for completed_timestamp_rewrite: checking a task whose captures
are 20 and 30 seconds stale at t=100 rewrites completed_at to 100. -/
theorem completed_timestamp_rewrite_witness :
    (check_task_status 100 (lc "t1") tsStaleEx).2.meta =
      some { metaEx with status := lc "completed", completed_at := some 100 } := by
  have hmax : max (80 : Rat) 70 = 80 := max_eq_left (by norm_num)
  have hlt : ¬ ((100 : Rat) - 80 < 10) := by norm_num
  exact (completed_timestamp_rewrite 100 (lc "t1") tsStaleEx metaEx rfl
    (by simp [check_task_status, tsStaleEx, metaEx, hmax, hlt,
              CheckResult.statusName])).1

/-- C10: a status check of a task whose metadata exists but with neither
capture artifact present classifies the task completed, reads both captures
as empty text, and reports the fallback literal as the result. -/
theorem no_artifacts_completed_fallback (now : Rat) (tid : List Char)
    (ts : TaskState) (m : Metadata) (hm : ts.meta = some m)
    (h1 : ts.stdout = none) (h2 : ts.stderr = none) :
    (check_task_status now tid ts).1 =
      .completed tid fallbackText (pyInt (now - m.started_at)) := by
  unfold check_task_status
  rw [hm, h1, h2]
  simp only [Option.isSome_none, Bool.or_self, Bool.false_and,
    Bool.false_eq_true, if_false]
  rw [show extract_result_from_codex_output [] [] = fallbackText from by decide]

/-- Witness for no_artifacts_completed_fallback on a concrete store. -/
theorem no_artifacts_completed_fallback_witness :
    (check_task_status 100 (lc "t1") tsNoArtifacts).1 =
      .completed (lc "t1") fallbackText (pyInt (100 - metaEx.started_at)) := by
  exact no_artifacts_completed_fallback 100 (lc "t1") tsNoArtifacts metaEx
    rfl rfl rfl

/-- C9: the tools/list response is built from one fixed catalog constant,
independent of the environment (time, fresh ids, subprocess behavior) and of
the task store, and the store is left untouched; hence any two tools/list
responses carry byte-identical tool catalogs. -/
theorem tools_list_constant (env : Env) (store : TaskStore)
    (fields : List (List Char × Json))
    (hm : (dictGet fields (lc "method")).getD Json.null = .str (lc "tools/list")) :
    handle_request env store (.obj fields) =
      some ([mkResult ((dictGet fields (lc "id")).getD Json.null) toolsListJson],
            store) := by
  unfold handle_request
  dsimp only
  rw [hm]
  rfl

/-- Witness for tools_list_constant on a concrete request. -/
theorem tools_list_constant_witness :
    handle_request envEx emptyStore
        (.obj [(lc "id", .num 3), (lc "method", .str (lc "tools/list"))]) =
      some ([mkResult (.num 3) toolsListJson], emptyStore) := by
  exact tools_list_constant envEx emptyStore _ rfl

/-- C6: a well-formed request whose method is none of initialize, tools/list,
tools/call gets a method-not-found error (-32601) carrying the request id;
and a tools/call whose tool name is none of the three known tools gets a
method-not-found error (-32601) carrying the request id. -/
theorem unknown_method_and_tool_errors :
    (∀ (env : Env) (store : TaskStore) (fields : List (List Char × Json))
       (m : List Char),
       (dictGet fields (lc "method")).getD Json.null = .str m →
       m ≠ lc "initialize" → m ≠ lc "tools/list" → m ≠ lc "tools/call" →
       handle_request env store (.obj fields) =
         some ([mkError ((dictGet fields (lc "id")).getD Json.null) (-32601)
                 (lc "Method not found: " ++ m)], store))
  ∧ (∀ (env : Env) (store : TaskStore) (fields pfields : List (List Char × Json))
       (t : List Char),
       (dictGet fields (lc "method")).getD Json.null = .str (lc "tools/call") →
       (dictGet fields (lc "params")).getD (Json.obj []) = .obj pfields →
       (dictGet pfields (lc "name")).getD Json.null = .str t →
       t ≠ lc "codex_execute" → t ≠ lc "codex_execute_async" →
       t ≠ lc "codex_check_result" →
       handle_request env store (.obj fields) =
         some ([mkError ((dictGet fields (lc "id")).getD Json.null) (-32601)
                 (lc "Unknown tool: " ++ t)], store)) := by
  constructor
  · intro env store fields m hm h1 h2 h3
    unfold handle_request
    dsimp only
    rw [hm]
    dsimp only
    rw [if_neg h1, if_neg h2, if_neg h3]
  · intro env store fields pfields t hm hp hn h1 h2 h3
    unfold handle_request
    dsimp only
    rw [hm]
    dsimp only
    rw [if_neg (by decide : ¬ lc "tools/call" = lc "initialize"),
        if_neg (by decide : ¬ lc "tools/call" = lc "tools/list"),
        if_pos (rfl : lc "tools/call" = lc "tools/call"), hp]
    dsimp only
    rw [hn]
    dsimp only
    rw [if_neg h1, if_neg h2, if_neg h3]

/-- Witness for unknown_method_and_tool_errors on concrete requests. -/
theorem unknown_method_and_tool_errors_witness :
    handle_request envEx emptyStore
        (.obj [(lc "id", .num 7), (lc "method", .str (lc "shutdown"))]) =
      some ([mkError (.num 7) (-32601) (lc "Method not found: " ++ lc "shutdown")],
            emptyStore)
    ∧ handle_request envEx emptyStore
        (.obj [(lc "id", .num 8), (lc "method", .str (lc "tools/call")),
               (lc "params", .obj [(lc "name", .str (lc "mystery"))])]) =
      some ([mkError (.num 8) (-32601) (lc "Unknown tool: " ++ lc "mystery")],
            emptyStore) := by
  exact ⟨unknown_method_and_tool_errors.1 envEx emptyStore _ _ rfl
           (by decide) (by decide) (by decide),
         unknown_method_and_tool_errors.2 envEx emptyStore _ _ _ rfl rfl rfl
           (by decide) (by decide) (by decide)⟩

/-- C7: a codex_execute call is answered with a successful text response
wrapping whatever string call_codex_sync produced — for any subprocess
outcome, including timeout and launch faults — never a JSON-RPC error
object; and the two except clauses yield their literal diagnostic texts. -/
theorem sync_failures_as_text :
    (∀ (env : Env) (store : TaskStore) (fields pfields : List (List Char × Json)),
       (dictGet fields (lc "method")).getD Json.null = .str (lc "tools/call") →
       (dictGet fields (lc "params")).getD (Json.obj []) = .obj pfields →
       (dictGet pfields (lc "name")).getD Json.null = .str (lc "codex_execute") →
       (∃ afields, (dictGet pfields (lc "arguments")).getD (Json.obj []) =
          .obj afields) →
       handle_request env store (.obj fields) =
         some ([mkResult ((dictGet fields (lc "id")).getD Json.null)
                 (textContent (call_codex_sync env.outcome))], store)
         ∧ isErrorResponse (mkResult ((dictGet fields (lc "id")).getD Json.null)
             (textContent (call_codex_sync env.outcome))) = false)
  ∧ call_codex_sync .timedOut = lc "Error: Codex execution timed out"
  ∧ (∀ message, call_codex_sync (.failed message) =
       lc "Error calling Codex: " ++ message) := by
  refine ⟨?_, rfl, fun message => rfl⟩
  intro env store fields pfields hm hp hn harg
  obtain ⟨afields, ha⟩ := harg
  constructor
  · unfold handle_request
    dsimp only
    rw [hm]
    dsimp only
    rw [if_neg (by decide : ¬ lc "tools/call" = lc "initialize"),
        if_neg (by decide : ¬ lc "tools/call" = lc "tools/list"),
        if_pos (rfl : lc "tools/call" = lc "tools/call"), hp]
    dsimp only
    rw [hn]
    dsimp only
    rw [if_pos (rfl : lc "codex_execute" = lc "codex_execute"), ha]
  · rfl

/-- Witness for sync_failures_as_text: with a timed-out subprocess the
dispatcher answers with the literal timeout diagnostic as ordinary text. -/
theorem sync_failures_as_text_witness :
    handle_request envEx emptyStore
        (.obj [(lc "id", .num 2), (lc "method", .str (lc "tools/call")),
               (lc "params", .obj [(lc "name", .str (lc "codex_execute")),
                                   (lc "arguments", .obj [])])]) =
      some ([mkResult (.num 2)
              (textContent (lc "Error: Codex execution timed out"))],
            emptyStore) := by
  exact (sync_failures_as_text.1 envEx emptyStore
    [(lc "id", .num 2), (lc "method", .str (lc "tools/call")),
     (lc "params", .obj [(lc "name", .str (lc "codex_execute")),
                         (lc "arguments", .obj [])])]
    [(lc "name", .str (lc "codex_execute")), (lc "arguments", .obj [])]
    rfl rfl rfl ⟨[], rfl⟩).1

/-- C8: an async launch installs, under the returned fresh task id, all three
artifacts — both capture files and the metadata record with status running,
startedAt = launch time, and the space-joined command — before the id is
handed back; and through the dispatcher the codex_execute_async response
returns exactly that id over the store so updated. -/
theorem async_launch_creates_artifacts :
    (∀ (env : Env) (sub : List Char) (pr : Option (List Char))
       (extra : List (List Char)) (store : TaskStore),
       (start_codex_async env sub pr extra store).2
           (start_codex_async env sub pr extra store).1 =
         { meta := some { task_id := env.new_task_id, pid := env.new_pid,
                          status := lc "running",
                          command := List.intercalate (lc " ")
                            (build_cmd sub pr extra),
                          started_at := env.now, completed_at := none },
           stdout := some { content := [], mtime := env.now },
           stderr := some { content := [], mtime := env.now } })
  ∧ (∀ (env : Env) (store : TaskStore)
       (fields pfields afields : List (List Char × Json))
       (sub : List Char) (pr : Option (List Char)) (extra : List (List Char)),
       (dictGet fields (lc "method")).getD Json.null = .str (lc "tools/call") →
       (dictGet fields (lc "params")).getD (Json.obj []) = .obj pfields →
       (dictGet pfields (lc "name")).getD Json.null =
         .str (lc "codex_execute_async") →
       (dictGet pfields (lc "arguments")).getD (Json.obj []) = .obj afields →
       getSubcommandArg afields = some sub →
       getPromptArg afields = some pr →
       getArgsArg afields = some extra →
       handle_request env store (.obj fields) =
         some ([mkResult ((dictGet fields (lc "id")).getD Json.null)
                 (textContent (asyncStartText env.new_task_id))],
               (start_codex_async env sub pr extra store).2)) := by
  constructor
  · intro env sub pr extra store
    unfold start_codex_async
    dsimp only
    rw [if_pos rfl]
  · intro env store fields pfields afields sub pr extra hm hp hn ha hs hpr hx
    unfold handle_request
    dsimp only
    rw [hm]
    dsimp only
    rw [if_neg (by decide : ¬ lc "tools/call" = lc "initialize"),
        if_neg (by decide : ¬ lc "tools/call" = lc "tools/list"),
        if_pos (rfl : lc "tools/call" = lc "tools/call"), hp]
    dsimp only
    rw [hn]
    dsimp only
    rw [if_neg (by decide : ¬ lc "codex_execute_async" = lc "codex_execute"),
        if_pos (rfl : lc "codex_execute_async" = lc "codex_execute_async"), ha]
    dsimp only
    rw [hs, hpr, hx]
    rfl

/-- Witness for async_launch_creates_artifacts: a concrete launch request
returns the fresh id and the post-launch store holds all three artifacts. -/
theorem async_launch_creates_artifacts_witness :
    handle_request envEx emptyStore
        (.obj [(lc "id", .num 5), (lc "method", .str (lc "tools/call")),
               (lc "params", .obj [(lc "name", .str (lc "codex_execute_async")),
                                   (lc "arguments",
                                    .obj [(lc "prompt", .str (lc "hi"))])])]) =
      some ([mkResult (.num 5) (textContent (asyncStartText (lc "ab12cd34")))],
            (start_codex_async envEx (lc "exec") (some (lc "hi")) [] emptyStore).2)
    ∧ (start_codex_async envEx (lc "exec") (some (lc "hi")) [] emptyStore).2
        (lc "ab12cd34") =
      { meta := some { task_id := lc "ab12cd34", pid := 4242,
                       status := lc "running",
                       command := List.intercalate (lc " ")
                         (build_cmd (lc "exec") (some (lc "hi")) []),
                       started_at := 100, completed_at := none },
        stdout := some { content := [], mtime := 100 },
        stderr := some { content := [], mtime := 100 } } := by
  exact ⟨async_launch_creates_artifacts.2 envEx emptyStore _ _ _ _ _ _
           rfl rfl rfl rfl rfl rfl rfl,
         async_launch_creates_artifacts.1 envEx (lc "exec") (some (lc "hi"))
           [] emptyStore⟩

/-- C3 (amended): a codex_check_result call whose task_id argument is a
non-empty string with no metadata artifact on the store is answered with a
successful text response reporting not-found — the check outcome is the
not_found constructor, distinct from running and completed, and the response
carries no error object; the empty string, however, is falsy in Python and
is rejected up front with an invalid-params (-32602) protocol error, before
the task store is ever consulted. -/
theorem check_result_not_found_dispatch :
    (∀ (env : Env) (store : TaskStore)
       (fields pfields afields : List (List Char × Json)) (tid : List Char),
       (dictGet fields (lc "method")).getD Json.null = .str (lc "tools/call") →
       (dictGet fields (lc "params")).getD (Json.obj []) = .obj pfields →
       (dictGet pfields (lc "name")).getD Json.null =
         .str (lc "codex_check_result") →
       (dictGet pfields (lc "arguments")).getD (Json.obj []) = .obj afields →
       (dictGet afields (lc "task_id")).getD Json.null = .str tid →
       tid ≠ [] →
       (store tid).meta = none →
       responsesOf (handle_request env store (.obj fields)) =
         some [mkResult ((dictGet fields (lc "id")).getD Json.null)
                (textContent (lc "Task " ++ tid ++ lc " not found"))]
       ∧ (check_task_status env.now tid (store tid)).1 =
           .notFound (lc "Task " ++ tid ++ lc " not found")
       ∧ isErrorResponse (mkResult ((dictGet fields (lc "id")).getD Json.null)
           (textContent (lc "Task " ++ tid ++ lc " not found"))) = false)
  ∧ (∀ (env : Env) (store : TaskStore)
       (fields pfields afields : List (List Char × Json)),
       (dictGet fields (lc "method")).getD Json.null = .str (lc "tools/call") →
       (dictGet fields (lc "params")).getD (Json.obj []) = .obj pfields →
       (dictGet pfields (lc "name")).getD Json.null =
         .str (lc "codex_check_result") →
       (dictGet pfields (lc "arguments")).getD (Json.obj []) = .obj afields →
       (dictGet afields (lc "task_id")).getD Json.null = .str [] →
       handle_request env store (.obj fields) =
         some ([mkError ((dictGet fields (lc "id")).getD Json.null) (-32602)
                 (lc "task_id is required")], store)) := by
  constructor
  · intro env store fields pfields afields tid hm hp hn ha ht hne hmeta
    have hcheck : check_task_status env.now tid (store tid) =
        (.notFound (lc "Task " ++ tid ++ lc " not found"), store tid) := by
      unfold check_task_status
      rw [hmeta]
    have hfalsy : jsonFalsy (.str tid) = false := by
      cases tid with
      | nil => exact absurd rfl hne
      | cons c t => rfl
    refine ⟨?_, by rw [hcheck], rfl⟩
    unfold handle_request
    dsimp only
    rw [hm]
    dsimp only
    rw [if_neg (by decide : ¬ lc "tools/call" = lc "initialize"),
        if_neg (by decide : ¬ lc "tools/call" = lc "tools/list"),
        if_pos (rfl : lc "tools/call" = lc "tools/call"), hp]
    dsimp only
    rw [hn]
    dsimp only
    rw [if_neg (by decide : ¬ lc "codex_check_result" = lc "codex_execute"),
        if_neg (by decide :
          ¬ lc "codex_check_result" = lc "codex_execute_async"),
        if_pos (rfl : lc "codex_check_result" = lc "codex_check_result"), ha]
    dsimp only
    rw [ht, hfalsy]
    dsimp only [Bool.false_eq_true, if_false]
    rw [hcheck]
    rfl
  · intro env store fields pfields afields hm hp hn ha ht
    unfold handle_request
    dsimp only
    rw [hm]
    dsimp only
    rw [if_neg (by decide : ¬ lc "tools/call" = lc "initialize"),
        if_neg (by decide : ¬ lc "tools/call" = lc "tools/list"),
        if_pos (rfl : lc "tools/call" = lc "tools/call"), hp]
    dsimp only
    rw [hn]
    dsimp only
    rw [if_neg (by decide : ¬ lc "codex_check_result" = lc "codex_execute"),
        if_neg (by decide :
          ¬ lc "codex_check_result" = lc "codex_execute_async"),
        if_pos (rfl : lc "codex_check_result" = lc "codex_check_result"), ha]
    dsimp only
    rw [ht]
    rfl

/-- Witness for check_result_not_found_dispatch: an unknown non-empty id is
answered with a not-found text response. -/
theorem check_result_not_found_dispatch_witness :
    responsesOf (handle_request envEx emptyStore
        (.obj [(lc "id", .num 9), (lc "method", .str (lc "tools/call")),
               (lc "params", .obj [(lc "name", .str (lc "codex_check_result")),
                                   (lc "arguments",
                                    .obj [(lc "task_id", .str (lc "zzz"))])])])) =
      some [mkResult (.num 9)
             (textContent (lc "Task " ++ lc "zzz" ++ lc " not found"))] := by
  exact (check_result_not_found_dispatch.1 envEx emptyStore
    [(lc "id", .num 9), (lc "method", .str (lc "tools/call")),
     (lc "params", .obj [(lc "name", .str (lc "codex_check_result")),
                         (lc "arguments", .obj [(lc "task_id", .str (lc "zzz"))])])]
    [(lc "name", .str (lc "codex_check_result")),
     (lc "arguments", .obj [(lc "task_id", .str (lc "zzz"))])]
    [(lc "task_id", .str (lc "zzz"))]
    (lc "zzz") rfl rfl rfl rfl rfl (by decide) rfl).1

/-- C3 as frozen fails on the code at the empty string: with no metadata
artifact anywhere, a codex_check_result call with task_id equal to the empty
string is answered by a protocol-level invalid-params error (-32602), not by
a successful not-found text response — Python's truthiness test rejects the
empty string before the store is consulted. -/
theorem empty_task_id_protocol_error :
    handle_request envEx emptyStore
        (.obj [(lc "id", .num 1), (lc "method", .str (lc "tools/call")),
               (lc "params", .obj [(lc "name", .str (lc "codex_check_result")),
                                   (lc "arguments",
                                    .obj [(lc "task_id", .str (lc ""))])])]) =
      some ([mkError (.num 1) (-32602) (lc "task_id is required")], emptyStore)
    ∧ isErrorResponse (mkError (.num 1) (-32602) (lc "task_id is required")) =
        true
    ∧ (emptyStore (lc "")).meta = none := by
  exact ⟨rfl, rfl, rfl⟩

/-- C5 (amended): an input line that is non-blank after stripping and on
which json.loads fails produces exactly one response: a parse error with
null id and code -32700; the store is untouched. -/
theorem invalid_json_parse_error (loads : List Char → Except (List Char) Json)
    (env : Env) (store : TaskStore) (line msg : List Char)
    (h1 : pyStrip line ≠ [])
    (h2 : loads (pyStrip line) = .error msg) :
    process_line loads env store line =
      some ([mkError Json.null (-32700) (lc "Parse error: " ++ msg)], store) := by
  unfold process_line
  rw [if_neg h1, h2]

/-- Witness for invalid_json_parse_error on a concrete garbage line. -/
theorem invalid_json_parse_error_witness :
    process_line loadsRejecting envEx emptyStore (lc "not json") =
      some ([mkError Json.null (-32700)
              (lc "Parse error: " ++
                lc "Expecting value: line 1 column 1 (char 0)")], emptyStore) := by
  exact invalid_json_parse_error loadsRejecting envEx emptyStore
    (lc "not json") (lc "Expecting value: line 1 column 1 (char 0)")
    (by decide) rfl

/-- C5 as frozen fails on the code at whitespace-only lines: such a line is
not valid JSON (the rejecting loads oracle reflects json.loads, which never
even sees the line), yet the dispatcher strips it to emptiness and skips it,
emitting no response at all rather than one parse-error response. -/
theorem blank_line_emits_nothing :
    process_line loadsRejecting envEx emptyStore (lc "   ") =
      some ([], emptyStore)
    ∧ (loadsRejecting (lc "   ")).isOk = false := by
  exact ⟨rfl, rfl⟩
